import Mathlib

/-!
Verification of the smply CLI definition build & publish pipeline.

Shallow embedding of the TypeScript sources:
* `src/src/commands/machine-versions.ts` (the variant with `--skip-validation`,
  containing `validationScript`, `validateBundle` and
  `silencableCreateMachineVersion`),
* `src/src/utils.ts` (`buildFromCommand`, `gzip`),
* `src/src/build.ts` (`build`),
* `src/unnamed/part_001` (the two-variant `build` / `_build`),
* `src/mod.ts` (`createMachineVersion`, the three-phase publish protocol).

Filesystem effects are modelled by threading an explicit state of live
temporary directories; subprocess execution, esbuild, zlib and the network
are modelled as explicit environments; each command additionally produces a
trace of I/O and network events so that temporal claims (ordering of phases,
absence of calls) can be stated.
-/

namespace Smply

/-! ## Filesystem model

Temporary directories as created by `fs.mkdtemp` and removed by `rmdir` /
`fs.rm`.  `nextId` generates fresh directory names; `live` is the set of
currently existing temporary directories. -/

structure FS where
  nextId : Nat
  live : List Nat
deriving Repr, DecidableEq

/-- `fs.mkdtemp`: creates a fresh temporary directory and returns its name. -/
def mkdtemp (fs : FS) : Nat × FS :=
  (fs.nextId, { nextId := fs.nextId + 1, live := fs.nextId :: fs.live })

/-- `rmdir` / `fs.rm` on a temporary directory (failures are swallowed by
`.catch(() => \x7b\x7d)` in the source, and the directory is empty by the time it
is removed, so removal succeeds in the model). -/
def rmdirTemp (fs : FS) (d : Nat) : FS :=
  { fs with live := fs.live.erase d }

/-! ## BundleValidator: `validationScript` and `validateBundle`
(src/src/commands/machine-versions.ts, lines 161-212) -/

/-- The observable shape of the bundle module when loaded by the validation
subprocess: `import \x7b allowRead, allowWrite, default as machine \x7d`.
`definitionResolves` models whether `machine.definition` dereferences all
internal state references without throwing; per the source comment
("machine.definition resolves state references and throws for invalid ones")
a successful resolution yields the definition object, which is truthy. -/
structure Module where
  allowReadIsFunction : Bool
  allowWriteIsFunction : Bool
  defaultIsObject : Bool
  defaultHasMarker : Bool
  definitionResolves : Bool
deriving Repr, DecidableEq

/-- Exit code of the node subprocess running `validationScript` on a module of
the given shape: each failed `assert` (or a throw while evaluating
`machine.definition`) terminates the process with a non-zero exit code; if all
five assertions pass the process exits with code 0. -/
def runValidationScript (m : Module) : Nat :=
  if !m.allowReadIsFunction then 1
  else if !m.allowWriteIsFunction then 1
  else if !m.defaultIsObject then 1
  else if !m.defaultHasMarker then 1
  else if !m.definitionResolves then 1
  else 0

/-- Errors thrown by the commands (the source throws `InvalidArgumentError` or
`Error` objects; the constructors record which throw site produced them). -/
inductive CmdErr
  | invalidArgument (msg : String)
  | fsError (msg : String)
  | buildError (entrypoint : String)
  | gzipError (msg : String)
  | invalidBundle
  | netError (status : Nat) (body : String)
deriving Repr, DecidableEq

/-- The body of `validateBundle`'s `try` block (machine-versions.ts lines
178-207): copy the bundle into the temporary directory (`copyOk` models
whether `copyFile` succeeds), spawn node on `validationScript`, wait for the
exit code, and throw `Invalid bundle` when it is non-zero. -/
def validateBundleStep (copyOk : Bool) (m : Module) : Except CmdErr Unit :=
  if !copyOk then .error (.fsError "copyFile")
  else if runValidationScript m != 0 then .error .invalidBundle
  else .ok ()

/-- `validateBundle` (machine-versions.ts lines 171-212): makes a temporary
directory, runs the `try` body, and — in the `finally` block, on every path —
unlinks the copy and removes the temporary directory. -/
def validateBundle (copyOk : Bool) (m : Module) (fs : FS) : FS × Except CmdErr Unit :=
  let dfs := mkdtemp fs
  (rmdirTemp dfs.2 dfs.1, validateBundleStep copyOk m)

/-- `Except` success as a boolean. -/
def exOk {ε α : Type} : Except ε α → Bool
  | .ok _ => true
  | .error _ => false

/-! ## The validation subprocess wait (machine-versions.ts lines 181-199)

The options object passed to `spawn` and the wait for the exit event.  The
Node `spawn` API accepts an optional `timeout` (after which the child is
killed); the source passes no such option and never calls `proc.kill`, so the
await on the `exit` event is the only way the wait ends. -/

/-- The options object the source passes to `spawn`: `--input-type=module`,
`NODE_ENV=production`, `shell: false`, `stdio: "pipe"`, and no `timeout`. -/
structure SpawnOptions where
  inputTypeModule : Bool
  env : List (String × String)
  shell : Bool
  stdio : String
  timeout : Option Nat
deriving Repr, DecidableEq

def validationSpawnOptions : SpawnOptions :=
  { inputTypeModule := true
    env := [("NODE_ENV", "production")]
    shell := false
    stdio := "pipe"
    timeout := none }

/-- Behaviour of the spawned subprocess: it either exits with some code or
never exits. -/
inductive SubprocBehavior
  | exits (code : Int)
  | hangs
deriving Repr, DecidableEq

/-- The `await new Promise(resolve => proc.on("exit", ...))` wait: it yields
the exit code when the subprocess exits and never resolves otherwise. -/
def awaitBundleExit : SubprocBehavior → Option Int
  | .exits c => some c
  | .hangs => none

/-- Outcome of `validateBundle`'s wait-and-check section as a function of the
subprocess behaviour: `some true` = validation passed (`code === 0`),
`some false` = validation failed (non-zero exit), `none` = the validator never
produces an outcome because the wait never resolves. -/
def validateBundleWait (b : SubprocBehavior) : Option Bool :=
  (awaitBundleExit b).map (fun c => c == 0)

/-! ## Bundler: `build` (src/src/build.ts) and the two-variant `build`/`_build`
(src/unnamed/part_001), on top of an esbuild environment -/

/-- Model of `path.basename`: the path component after the last separator,
ignoring trailing separators (falling back to the input for separator-only or
empty paths). -/
def basename (p : String) : String :=
  let cs := ((p.data.reverse.dropWhile (fun c => c = '/')).takeWhile
    (fun c => c ≠ '/')).reverse
  if cs = [] then p else String.mk cs

/-- The options object handed to `esbuild.build`, covering the fields used by
both bundling call sites (src/src/build.ts and src/unnamed/part_001). -/
structure EsbuildOpts where
  entryPoint : String
  bundle : Bool
  platform : String
  format : String
  denoPlugin : Bool
  minify : Bool := false
  keepNames : Bool := false
  legalCommentsNone : Bool := false
  defineNodeEnvProduction : Bool := false
  dropDebugger : Bool := false
  externals : List String := []
  aliasXStateToNpm : Bool := false
deriving Repr, DecidableEq

/-- The result object of a successful `esbuild.build` call. -/
structure EsbuildRes where
  errors : List String
deriving Repr, DecidableEq

/-- Built artifact: `\x7b code, fileName \x7d` as returned by `build`. -/
structure Artifact where
  fileName : String
  code : String
deriving Repr, DecidableEq

/-- The pair of variants returned by the two-variant `build` of
src/unnamed/part_001: `code` is the externalized variant, `bundled` the fully
inlined one. -/
structure ArtifactPair where
  fileName : String
  code : String
  bundled : String
deriving Repr, DecidableEq

/-- Observable I/O and network events of one command run. -/
inductive Ev
  | readFile (path : String)
  | esbuildRun (opts : EsbuildOpts)
  | gzipCall (input : String)
  | validateRun (code : String) (passed : Bool)
  | clientCreate (machine : String) (gzippedCode : List Nat)
      (clientInfo : String) (makeCurrent : Bool)
deriving Repr, DecidableEq

/-- Environment of external collaborators for the machine-versions commands:
the filesystem contents, esbuild, zlib, the shape of the bundle module when
executed by the validation subprocess, and the StateBacked client. -/
structure BuildEnv where
  readFile : String → Except String String
  esbuild : EsbuildOpts → Except String EsbuildRes
  outContents : EsbuildOpts → Option String
  gzip : String → Except String (List Nat)
  moduleOf : String → Module
  copyOk : Bool
  createResp : Except (Nat × String) String

/-- Result of one command run: final filesystem, event trace, and outcome. -/
structure RunOut (α : Type) where
  fs : FS
  events : List Ev
  result : Except CmdErr α

/-- `build` (src/src/build.ts): makes a temporary output directory, runs
esbuild (bundle, browser platform, esm format, the deno loader plugin for the
deno dialect), reads the output file, fails on esbuild errors or empty output,
and removes the output directory in a `finally` on every path. -/
def buildOne (env : BuildEnv) (fs : FS) (inputFile : String) (inputType : String) :
    RunOut Artifact :=
  let dfs := mkdtemp fs
  let opts : EsbuildOpts :=
    { entryPoint := inputFile, bundle := true, platform := "browser",
      format := "esm", denoPlugin := inputType == "deno" }
  let step : Except CmdErr Artifact :=
    match env.esbuild opts with
    | .error _ => .error (.buildError inputFile)
    | .ok res =>
      match env.outContents opts with
      | none => .error (.fsError "ENOENT")
      | some code =>
        if res.errors ≠ [] then .error (.buildError inputFile)
        else if code = "" then .error (.buildError inputFile)
        else .ok { fileName := basename inputFile, code := code }
  { fs := rmdirTemp dfs.2 dfs.1, events := [.esbuildRun opts], result := step }

/-- The three mutually exclusive source inputs of `buildFromCommand`
(src/src/utils.ts): `--js`, `--node`, `--deno`. -/
structure BuildOpts where
  js : Option String
  node : Option String
  deno : Option String
deriving Repr, DecidableEq

/-- JavaScript truthiness of an optional string flag (`filter(Boolean)`,
`opts.js ? ... : ...`): absent and empty strings are falsy. -/
def truthy : Option String → Bool
  | none => false
  | some s => s ≠ ""

/-- Normalizes an optional string flag to `some` exactly when truthy. -/
def pick (o : Option String) : Option String :=
  match o with
  | none => none
  | some s => if s = "" then none else some s

/-- `buildFromCommand` (src/src/utils.ts lines 269-296): counts the truthy
source flags, throws `InvalidArgumentError` unless exactly one is given, and
otherwise reads the prebuilt file (`--js`) or builds the deno / node
entrypoint.  The count check precedes every file read and build. -/
def buildFromCommand (env : BuildEnv) (fs : FS) (opts : BuildOpts) : RunOut Artifact :=
  if ([opts.js, opts.node, opts.deno].filter truthy).length ≠ 1 then
    { fs := fs, events := [],
      result := .error (.invalidArgument "Exactly one of --js or --node must be specified") }
  else
    match pick opts.js with
    | some js =>
      match env.readFile js with
      | .ok contents =>
        { fs := fs, events := [.readFile js],
          result := .ok { fileName := basename js, code := contents } }
      | .error e =>
        { fs := fs, events := [.readFile js], result := .error (.fsError e) }
    | none =>
      match pick opts.deno with
      | some d => buildOne env fs d "deno"
      | none =>
        match pick opts.node with
        | some n => buildOne env fs n "node"
        | none =>
          { fs := fs, events := [],
            result := .error (.invalidArgument "Exactly one of --js or --node must be specified") }

/-- `_build` (src/unnamed/part_001 lines 20-70): like `build` of
src/src/build.ts but with minification, name preservation, stripped legal
comments, `process.env.NODE_ENV` defined to `"production"`, `debugger`
statements dropped, and, when `externalizeXState` is set, the `npm:xstate`
dependency left external (with `xstate` aliased to it). -/
def partBuildOne (env : BuildEnv) (fs : FS) (inputFile : String) (inputType : String)
    (externalizeXState : Bool) : RunOut Artifact :=
  let dfs := mkdtemp fs
  let opts : EsbuildOpts :=
    { entryPoint := inputFile, bundle := true, platform := "browser",
      format := "esm", denoPlugin := inputType == "deno",
      minify := true, keepNames := true, legalCommentsNone := true,
      defineNodeEnvProduction := true, dropDebugger := true,
      externals := if externalizeXState then ["npm:xstate"] else [],
      aliasXStateToNpm := externalizeXState }
  let step : Except CmdErr Artifact :=
    match env.esbuild opts with
    | .error _ => .error (.buildError inputFile)
    | .ok res =>
      match env.outContents opts with
      | none => .error (.fsError "ENOENT")
      | some code =>
        if res.errors ≠ [] then .error (.buildError inputFile)
        else if code = "" then .error (.buildError inputFile)
        else .ok { fileName := basename inputFile, code := code }
  { fs := rmdirTemp dfs.2 dfs.1, events := [.esbuildRun opts], result := step }

/-- `build` (src/unnamed/part_001 lines 7-18): one call producing both
variants via `Promise.all([_build(..., false), _build(..., true)])` and
returning `\x7b fileName: externalized.fileName, code: externalized.code,
bundled: bundled.code \x7d`.  The two graph resolutions have no ordering
dependency; they are sequenced here, and `Promise.all` rejects with the first
rejection when either fails. -/
def partBuild (env : BuildEnv) (fs : FS) (inputFile : String) (inputType : String) :
    RunOut ArtifactPair :=
  let b := partBuildOne env fs inputFile inputType false
  let e := partBuildOne env b.fs inputFile inputType true
  { fs := e.fs, events := b.events ++ e.events,
    result :=
      match b.result, e.result with
      | .ok bundled, .ok ext =>
        .ok { fileName := ext.fileName, code := ext.code, bundled := bundled.code }
      | .error m, _ => .error m
      | _, .error m => .error m }

/-! ## PublishOrchestrator, CLI client variant:
`silencableCreateMachineVersion` (src/src/commands/machine-versions.ts,
lines 238-276) -/

/-- Options of the `machine-versions create` command (source flags plus
machine, version reference, make-current, skip-validation and quiet). -/
structure SilOpts where
  js : Option String
  node : Option String
  deno : Option String
  machine : String
  versionReference : String
  makeCurrent : Bool
  skipValidation : Bool
  quiet : Bool
deriving Repr, DecidableEq

/-- `silencableCreateMachineVersion`: builds the artifact with
`buildFromCommand`, gzips its code, then — unless `skipValidation` — writes
the code into a fresh temporary directory, runs `validateBundle` on that copy
(removing the copy and the directory in a `finally` on every path), and
finally calls `client.machineVersions.create` with the gzipped code.  Note the
order in the source: the gzip happens before validation, and the validation
temporary file holds a copy of the already-built code. -/
def silencableCreateMachineVersion (env : BuildEnv) (o : SilOpts) (fs : FS) :
    RunOut String :=
  let b := buildFromCommand env fs { js := o.js, node := o.node, deno := o.deno }
  match b.result with
  | .error e => { fs := b.fs, events := b.events, result := .error e }
  | .ok code =>
    match env.gzip code.code with
    | .error e =>
      { fs := b.fs, events := b.events ++ [.gzipCall code.code],
        result := .error (.gzipError e) }
    | .ok gzippedCode =>
      let evs := b.events ++ [.gzipCall code.code]
      if o.skipValidation then
        match env.createResp with
        | .error sb =>
          { fs := b.fs,
            events := evs ++ [.clientCreate o.machine gzippedCode o.versionReference o.makeCurrent],
            result := .error (.netError sb.1 sb.2) }
        | .ok version =>
          { fs := b.fs,
            events := evs ++ [.clientCreate o.machine gzippedCode o.versionReference o.makeCurrent],
            result := .ok version }
      else
        let dfs := mkdtemp b.fs
        let v := validateBundle env.copyOk (env.moduleOf code.code) dfs.2
        let fsAfter := rmdirTemp v.1 dfs.1
        let passed : Bool := match v.2 with | .ok _ => true | .error _ => false
        let evs := evs ++ [.validateRun code.code passed]
        match v.2 with
        | .error e => { fs := fsAfter, events := evs, result := .error e }
        | .ok _ =>
          match env.createResp with
          | .error sb =>
            { fs := fsAfter,
              events := evs ++ [.clientCreate o.machine gzippedCode o.versionReference o.makeCurrent],
              result := .error (.netError sb.1 sb.2) }
          | .ok version =>
            { fs := fsAfter,
              events := evs ++ [.clientCreate o.machine gzippedCode o.versionReference o.makeCurrent],
              result := .ok version }

/-! ## PublishOrchestrator, three-phase protocol variant:
`createMachineVersion` (src/mod.ts lines 772-876) -/

/-- Options of the mod.ts `machine-versions create` command. -/
structure ModOpts where
  machine : String
  versionReference : String
  file : Option String
  node : Option String
  deno : Option String
  makeCurrent : Bool
deriving Repr, DecidableEq

/-- The parsed JSON body of a successful `CreateVersion` response. -/
structure Step1Body where
  machineVersionId : String
  codeUploadUrl : String
  codeUploadFields : List (String × String)
deriving Repr, DecidableEq

/-- An HTTP response as observed through `fetch`: `ok`, `status`, `text()`. -/
structure HttpResp where
  ok : Bool
  status : Nat
  body : String
deriving Repr, DecidableEq

/-- Environment for the mod.ts publish run: file reads, the two dialect
builds, and the responses of the three protocol phases. -/
structure ModEnv where
  readFile : String → Except String String
  buildNode : String → Except String Artifact
  buildDeno : String → Except String Artifact
  createResp : HttpResp
  createBody : Step1Body
  uploadResp : HttpResp
  finalizeResp : HttpResp

/-- Errors thrown by the mod.ts publish run; the network constructors carry
the failing phase response status and body exactly as interpolated into the
thrown `Error` message. -/
inductive PubErr
  | invalidArgument (msg : String)
  | fsError (msg : String)
  | buildError (entrypoint : String)
  | createFailed (status : Nat) (body : String)
  | uploadFailed (status : Nat) (body : String)
  | finalizeFailed (status : Nat) (body : String)
deriving Repr, DecidableEq

/-- Network calls observable on the wire during a mod.ts publish run, each
recorded with whether the backend answered with a success status.
`deleteVersion` is the compensating call that would remove a created version
record; it is part of the observable alphabet precisely so that its absence
from every trace is expressible — the source never issues it. -/
inductive NetEv
  | createVersion (machine : String) (versionId : String) (ok : Bool)
  | uploadCode (url : String) (fields : List (String × String))
      (fileName : String) (bytes : String) (ok : Bool)
  | finalizeVersion (machine : String) (versionId : String)
      (clientInfo : String) (makeCurrent : Bool) (ok : Bool)
  | deleteVersion (machine : String) (versionId : String)
deriving Repr, DecidableEq

/-- The source-selection section of mod.ts `createMachineVersion` (lines
783-806): the count check over `opts.file`, `opts.node`, `opts.deno`, then
`Deno.readFile` for `--file` or `build` for the deno / node dialects, with the
trailing null check. -/
def modSelectSource (env : ModEnv) (o : ModOpts) : Except PubErr Artifact :=
  if ([o.file, o.node, o.deno].filter truthy).length ≠ 1 then
    .error (.invalidArgument "Exactly one of --file, --node or --deno must be specified")
  else
    match pick o.file with
    | some f =>
      match env.readFile f with
      | .ok contents => .ok { fileName := basename f, code := contents }
      | .error e => .error (.fsError e)
    | none =>
      match pick o.deno with
      | some d =>
        match env.buildDeno d with
        | .ok a => .ok a
        | .error _ => .error (.buildError d)
      | none =>
        match pick o.node with
        | some n =>
          match env.buildNode n with
          | .ok a => .ok a
          | .error _ => .error (.buildError n)
        | none =>
          .error (.invalidArgument "Exactly one of --file, --node or --deno must be specified")

/-- `createMachineVersion` (src/mod.ts lines 772-876): source selection, then
the three sequential protocol phases — `POST /machines/:machine/v`
(CreateVersion), a multipart `POST` of the code to the returned
`codeUploadUrl` with the `codeUploadFields` (UploadCode), and
`PUT /machines/:machine/v/:machineVersionId` with the version reference and
make-current flag (FinalizeVersion).  Each non-ok response throws immediately
with that response's status and body; no further call follows a failure and
no compensating call is ever issued. -/
def createMachineVersion (env : ModEnv) (o : ModOpts) :
    List NetEv × Except PubErr Unit :=
  match modSelectSource env o with
  | .error e => ([], .error e)
  | .ok art =>
    let ev1 := NetEv.createVersion o.machine env.createBody.machineVersionId env.createResp.ok
    if !env.createResp.ok then
      ([ev1], .error (.createFailed env.createResp.status env.createResp.body))
    else
      let body := env.createBody
      let ev2 := NetEv.uploadCode body.codeUploadUrl body.codeUploadFields
        art.fileName art.code env.uploadResp.ok
      if !env.uploadResp.ok then
        ([ev1, ev2], .error (.uploadFailed env.uploadResp.status env.uploadResp.body))
      else
        let ev3 := NetEv.finalizeVersion o.machine body.machineVersionId
          o.versionReference o.makeCurrent env.finalizeResp.ok
        if !env.finalizeResp.ok then
          ([ev1, ev2, ev3],
           .error (.finalizeFailed env.finalizeResp.status env.finalizeResp.body))
        else
          ([ev1, ev2, ev3], .ok ())

/-! ## Backend state evolution under the observed network calls -/

/-- A version record on the backend, as affected by the protocol calls:
created unfinalized by a successful CreateVersion, finalized by a successful
FinalizeVersion (which attaches the version metadata to the uploaded code);
code bytes travel to the storage `uploadUrl`, not to the record. -/
structure VersionRec where
  machine : String
  id : String
  finalized : Bool
deriving Repr, DecidableEq

/-- Backend state: the version records. -/
structure Backend where
  versions : List VersionRec
deriving Repr, DecidableEq

/-- Effect of one observed network call on the backend state. -/
def applyNetEv (b : Backend) : NetEv → Backend
  | .createVersion m v true =>
    { versions := b.versions ++ [{ machine := m, id := v, finalized := false }] }
  | .createVersion _ _ false => b
  | .uploadCode _ _ _ _ _ => b
  | .finalizeVersion m v _ _ true =>
    { versions := b.versions.map
        (fun r => if r.machine = m ∧ r.id = v then { r with finalized := true } else r) }
  | .finalizeVersion _ _ _ _ false => b
  | .deleteVersion m v =>
    { versions := b.versions.filter (fun r => !(r.machine == m && r.id == v)) }

/-- Backend state after a trace of network calls. -/
def runBackend (b : Backend) (evs : List NetEv) : Backend :=
  evs.foldl applyNetEv b

/-! ## Compressor (src/src/utils.ts `gzip`)

The `gzip` helper delegates the compression itself to `node:zlib` (an
external library; only the byte-preserving wrapper lives in this repository)
and resolves with exactly the bytes zlib produced
(`new Uint8Array(gzipped.buffer, gzipped.byteOffset, gzipped.byteLength)`).
The compressor below is therefore modelled from the spec. -/

/-- Modelled from the spec: the Compressor of section 4.4 ("deterministically
compresses the final artifact bytes", "decompression always reproduces the
exact input"); the concrete DEFLATE encoder inside `node:zlib` is not part of
this repository.  This model emits a valid RFC 1951 DEFLATE stream made of
stored (BTYPE=00) blocks of at most 65535 bytes: each block is the header
byte (BFINAL bit, BTYPE 00, padding to the byte boundary), LEN and NLEN =
one's complement of LEN as little-endian 16-bit values, then the raw bytes. -/
def deflateStored (l : List Nat) : List Nat :=
  if l.length ≤ 65535 then
    1 :: l.length % 256 :: l.length / 256 ::
      (255 - l.length % 256) :: (255 - l.length / 256) :: l
  else
    0 :: 255 :: 255 :: 0 :: 0 :: (l.take 65535 ++ deflateStored (l.drop 65535))
termination_by l.length
decreasing_by simp [List.length_drop]; omega

/-- Modelled from the spec: the decompressor matching `deflateStored` — parses
stored DEFLATE blocks, checking NLEN against LEN, and returns the decoded
payload together with the bytes following the final block. -/
def inflateStored (s : List Nat) : Option (List Nat × List Nat) :=
  match s with
  | b0 :: l0 :: l1 :: n0 :: n1 :: rest =>
    let len := l0 + 256 * l1
    if n0 = 255 - l0 ∧ n1 = 255 - l1 ∧ len ≤ rest.length then
      if b0 = 1 then some (rest.take len, rest.drop len)
      else if b0 = 0 then
        match inflateStored (rest.drop len) with
        | some pr => some (rest.take len ++ pr.1, pr.2)
        | none => none
      else none
    else none
  | _ => none
termination_by s.length
decreasing_by simp [List.length_drop]; omega

/-- One step of the reflected CRC-32 bit loop (polynomial 0xEDB88320). -/
def crcStep (c : Nat) : Nat :=
  if c % 2 = 1 then Nat.xor (c / 2) 0xEDB88320 else c / 2

/-- Folding one byte into a CRC-32 accumulator: xor the byte in, then eight
bit steps. -/
def crc32Update (crc b : Nat) : Nat :=
  crcStep (crcStep (crcStep (crcStep (crcStep (crcStep (crcStep (crcStep
    (Nat.xor crc (b % 256)))))))))

/-- Modelled from the spec: CRC-32 of a byte sequence, as stored in the gzip
trailer. -/
def crc32 (data : List Nat) : Nat :=
  Nat.xor (data.foldl crc32Update 0xFFFFFFFF) 0xFFFFFFFF

/-- A 32-bit value as four little-endian bytes. -/
def le32 (n : Nat) : List Nat :=
  [n % 256, n / 256 % 256, n / 65536 % 256, n / 16777216 % 256]

/-- The fixed 10-byte gzip member header: magic 1f 8b, CM = 8 (deflate), no
flags, zero mtime, XFL 0, OS 255 (unknown). -/
def gzipHeader : List Nat := [31, 139, 8, 0, 0, 0, 0, 0, 0, 255]

/-- Modelled from the spec: the Compressor's `compress` — a gzip member
wrapping the stored-block DEFLATE stream, followed by the CRC-32 of the input
and the input length modulo 2^32, both little-endian. -/
def gzipCompress (data : List Nat) : List Nat :=
  gzipHeader ++ deflateStored data ++ le32 (crc32 data) ++ le32 (data.length % 4294967296)

/-- Modelled from the spec: gzip decompression — checks the member header,
inflates the DEFLATE stream, and verifies the CRC-32 and length trailer
against the decoded payload. -/
def gunzip (bytes : List Nat) : Option (List Nat) :=
  match bytes with
  | 31 :: 139 :: 8 :: 0 :: _ :: _ :: _ :: _ :: _ :: _ :: rest =>
    match inflateStored rest with
    | some pr =>
      if pr.2 = le32 (crc32 pr.1) ++ le32 (pr.1.length % 4294967296) then some pr.1
      else none
    | none => none
  | _ => none

/-! ## Concrete inputs used by witnesses and counterexamples -/

/-- A bundle module satisfying the full validation contract. -/
def goodModule : Module :=
  { allowReadIsFunction := true, allowWriteIsFunction := true,
    defaultIsObject := true, defaultHasMarker := true, definitionResolves := true }

/-- A bundle whose default export lacks the `__xstatenode` marker. -/
def noMarkerModule : Module :=
  { goodModule with defaultHasMarker := false }

/-- A bundle whose definition has a dangling internal state reference, so
that `machine.definition` throws. -/
def danglingModule : Module :=
  { goodModule with definitionResolves := false }

/-- An empty filesystem. -/
def fs0 : FS := { nextId := 0, live := [] }

/-- A fully successful environment for the machine-versions commands. -/
def envOk : BuildEnv :=
  { readFile := fun _ => .ok "bundle"
    esbuild := fun _ => .ok { errors := [] }
    outContents := fun _ => some "built"
    gzip := fun s => .ok [s.length]
    moduleOf := fun _ => goodModule
    copyOk := true
    createResp := .ok "ver_1" }

/-- Like `envOk` but the built bundle fails validation (its default export
lacks the definition marker). -/
def envBadBundle : BuildEnv :=
  { envOk with moduleOf := fun _ => noMarkerModule }

/-- `machine-versions create` options with a single `--js` source and
validation enabled. -/
def optsJs : SilOpts :=
  { js := some "machine.js", node := none, deno := none,
    machine := "toggler", versionReference := "v1",
    makeCurrent := false, skipValidation := false, quiet := true }

/-- A successful HTTP response. -/
def okResp : HttpResp := { ok := true, status := 200, body := "ok" }

/-- A failing HTTP response. -/
def failResp : HttpResp := { ok := false, status := 500, body := "boom" }

/-- A concrete CreateVersion response body. -/
def step1 : Step1Body :=
  { machineVersionId := "ver_1", codeUploadUrl := "upload-url",
    codeUploadFields := [("key", "value")] }

/-- mod.ts publish environment in which every phase succeeds. -/
def modEnvOk : ModEnv :=
  { readFile := fun _ => .ok "code"
    buildNode := fun _ => .error "unused"
    buildDeno := fun _ => .error "unused"
    createResp := okResp
    createBody := step1
    uploadResp := okResp
    finalizeResp := okResp }

/-- mod.ts publish environment in which CreateVersion answers non-2xx. -/
def modEnvCreateFail : ModEnv := { modEnvOk with createResp := failResp }

/-- mod.ts publish environment in which UploadCode fails. -/
def modEnvUploadFail : ModEnv := { modEnvOk with uploadResp := failResp }

/-- mod.ts publish environment in which FinalizeVersion fails. -/
def modEnvFinalizeFail : ModEnv := { modEnvOk with finalizeResp := failResp }

/-- mod.ts `machine-versions create` options with a single `--file` source. -/
def modOptsFile : ModOpts :=
  { machine := "toggler", versionReference := "v1",
    file := some "machine.js", node := none, deno := none, makeCurrent := false }

/-! ## Helper lemmas -/

theorem validateBundle_snd (c : Bool) (m : Module) (fs : FS) :
    (validateBundle c m fs).2 = validateBundleStep c m := rfl

theorem validateBundle_fs_live (c : Bool) (m : Module) (fs : FS) :
    (validateBundle c m fs).1.live = fs.live := by
  simp [validateBundle, mkdtemp, rmdirTemp]

theorem buildOne_fs_live (env : BuildEnv) (fs : FS) (f t : String) :
    (buildOne env fs f t).fs.live = fs.live := by
  simp [buildOne, mkdtemp, rmdirTemp]

theorem partBuildOne_fs_live (env : BuildEnv) (fs : FS) (f t : String) (x : Bool) :
    (partBuildOne env fs f t x).fs.live = fs.live := by
  simp [partBuildOne, mkdtemp, rmdirTemp]

theorem buildFromCommand_fs_live (env : BuildEnv) (fs : FS) (opts : BuildOpts) :
    (buildFromCommand env fs opts).fs.live = fs.live := by
  unfold buildFromCommand
  repeat' split
  all_goals first
  | rfl
  | exact buildOne_fs_live ..

theorem buildFromCommand_events_shape (env : BuildEnv) (fs : FS) (opts : BuildOpts) :
    (buildFromCommand env fs opts).events = []
    ∨ (∃ p, (buildFromCommand env fs opts).events = [.readFile p])
    ∨ (∃ eo, (buildFromCommand env fs opts).events = [.esbuildRun eo]) := by
  unfold buildFromCommand buildOne
  repeat' split
  all_goals first
  | exact Or.inl rfl
  | exact Or.inr (Or.inl ⟨_, rfl⟩)
  | exact Or.inr (Or.inr ⟨_, rfl⟩)

theorem clientCreate_not_in_buildFromCommand (env : BuildEnv) (fs : FS)
    (opts : BuildOpts) (m : String) (g : List Nat) (ci : String) (mc : Bool) :
    Ev.clientCreate m g ci mc ∉ (buildFromCommand env fs opts).events := by
  rcases buildFromCommand_events_shape env fs opts with h | ⟨p, h⟩ | ⟨eo, h⟩ <;>
    simp [h]

theorem validateRun_not_in_buildFromCommand (env : BuildEnv) (fs : FS)
    (opts : BuildOpts) (c : String) (p : Bool) :
    Ev.validateRun c p ∉ (buildFromCommand env fs opts).events := by
  rcases buildFromCommand_events_shape env fs opts with h | ⟨q, h⟩ | ⟨eo, h⟩ <;>
    simp [h]

theorem partBuildOne_fileName (env : BuildEnv) (fs : FS) (f t : String) (x : Bool)
    (a : Artifact) (h : (partBuildOne env fs f t x).result = .ok a) :
    a.fileName = basename f := by
  unfold partBuildOne at h
  simp only at h
  split at h
  · exact absurd h (by simp)
  · split at h
    · exact absurd h (by simp)
    · split at h
      · exact absurd h (by simp)
      · split at h
        · exact absurd h (by simp)
        · cases h
          rfl

/-! ## C1: BundleValidator contract -/

/-- C1: For every artifact, `BundleValidator.validate` returns `passed = true`
exactly when the validation subprocess exits with code 0 having asserted that
the module exports a read predicate function, exports a write predicate
function, default-exports an object carrying the internal definition marker,
and has a fully resolvable internal state graph; in particular it rejects an
artifact whose default export lacks the marker and one with a dangling
internal state reference. -/
theorem validateBundle_passes_iff_contract (fs : FS) (m : Module) :
    ((exOk (validateBundle true m fs).2 = true) ↔ runValidationScript m = 0)
  ∧ (runValidationScript m = 0 ↔
      (m.allowReadIsFunction = true ∧ m.allowWriteIsFunction = true
        ∧ m.defaultIsObject = true ∧ m.defaultHasMarker = true
        ∧ m.definitionResolves = true))
  ∧ exOk (validateBundle true noMarkerModule fs).2 = false
  ∧ exOk (validateBundle true danglingModule fs).2 = false := by
  obtain ⟨r, w, ob, mk, d⟩ := m
  refine ⟨?_, ?_, ?_, ?_⟩ <;>
    cases r <;> cases w <;> cases ob <;> cases mk <;> cases d <;>
      simp [validateBundle, validateBundleStep, runValidationScript, exOk,
        noMarkerModule, danglingModule, goodModule]

/-! ## C8: the validation subprocess wait has no bounded lifetime -/

/-- C8 counterexample: the claim says a non-exiting subprocess still yields a
terminating validation run treated as failure; but no `timeout` is configured
on the spawn and the validator's wait yields no outcome at all when the
subprocess hangs. -/
theorem validator_no_timeout_cex :
    validateBundleWait SubprocBehavior.hangs = none
  ∧ validateBundleWait SubprocBehavior.hangs ≠ some false
  ∧ validationSpawnOptions.timeout = none := by
  refine ⟨rfl, ?_, rfl⟩
  simp [validateBundleWait, awaitBundleExit]

/-- C8 amended: the subprocess is given no bounded lifetime — the validator's
wait resolves exactly when the subprocess exits (waiting indefinitely
otherwise), a run is a validation failure exactly when the exit code is
non-zero, and the spawn options configure no timeout. -/
theorem validator_wait_unbounded (b : SubprocBehavior) :
    (validateBundleWait b = none ↔ b = SubprocBehavior.hangs)
  ∧ (∀ c : Int, validateBundleWait (SubprocBehavior.exits c) = some (c == 0))
  ∧ validationSpawnOptions.timeout = none := by
  cases b <;>
    simp [validateBundleWait, awaitBundleExit, validationSpawnOptions]

/-! ## C7: compress / decompress roundtrip -/

theorem inflateStored_deflateStored (n : Nat) :
    ∀ (l extra : List Nat), l.length ≤ n →
      inflateStored (deflateStored l ++ extra) = some (l, extra) := by
  induction n with
  | zero =>
    intro l extra h
    have hl : l = [] := List.length_eq_zero.mp (Nat.le_zero.mp h)
    subst hl
    simp [deflateStored, inflateStored]
  | succ n ih =>
    intro l extra h
    rw [deflateStored]
    by_cases hl : l.length ≤ 65535
    · rw [if_pos hl]
      simp only [List.cons_append]
      rw [inflateStored]
      have hmod : l.length % 256 + 256 * (l.length / 256) = l.length := by omega
      simp [hmod, List.take_left, List.drop_left]
    · rw [if_neg hl]
      simp only [List.cons_append]
      rw [inflateStored]
      have hlen : (l.take 65535).length = 65535 := by
        simp only [List.length_take]
        omega
      simp only [List.append_assoc]
      rw [if_pos trivial]
      have harith : (255 : Nat) + 256 * 255 = 65535 := by norm_num
      rw [harith]
      rw [List.take_left' hlen, List.drop_left' hlen]
      rw [ih (l.drop 65535) extra (by simp only [List.length_drop]; omega)]
      simp [List.take_append_drop]
      omega

/-- C7: For every byte sequence, including the empty input, a 1-byte input,
and multi-megabyte inputs, decompressing the output of `Compressor.compress`
reproduces the original input exactly (compress followed by decompress is the
identity). -/
theorem gzip_roundtrip (data : List Nat) :
    gunzip (gzipCompress data) = some data := by
  unfold gzipCompress gzipHeader
  simp only [List.cons_append, List.nil_append, List.append_assoc]
  rw [gunzip]
  rw [inflateStored_deflateStored data.length data _ le_rfl]
  simp

/-! ## C5: source selection requires exactly one populated input -/

/-- C5: For every input set in which the number of populated source inputs is
0 or at least 2, source selection fails with a configuration error
(`InvalidArgumentError`), and this failure occurs before any file I/O or
network call is performed (the event trace is empty and the filesystem is
untouched), in both `buildFromCommand` and the mod.ts `createMachineVersion`. -/
theorem sourceSelection_count_ne_one_fails
    (env : BuildEnv) (menv : ModEnv) (fs : FS) (opts : BuildOpts) (o : ModOpts)
    (h1 : ([opts.js, opts.node, opts.deno].filter truthy).length ≠ 1)
    (h2 : ([o.file, o.node, o.deno].filter truthy).length ≠ 1) :
    buildFromCommand env fs opts =
      { fs := fs, events := [],
        result := .error (.invalidArgument "Exactly one of --js or --node must be specified") }
  ∧ createMachineVersion menv o =
      ([], .error (.invalidArgument "Exactly one of --file, --node or --deno must be specified")) := by
  constructor
  · unfold buildFromCommand
    rw [if_pos h1]
  · unfold createMachineVersion modSelectSource
    rw [if_pos h2]

/-- C5 witness: with zero populated source inputs both commands fail with the
configuration error before any I/O event. -/
theorem sourceSelection_count_ne_one_fails_witness :
    buildFromCommand envOk fs0 { js := none, node := none, deno := none } =
      { fs := fs0, events := [],
        result := .error (.invalidArgument "Exactly one of --js or --node must be specified") } :=
  (sourceSelection_count_ne_one_fails envOk modEnvOk fs0
    { js := none, node := none, deno := none }
    { modOptsFile with file := none }
    (by decide) (by decide)).1

/-! ## C2: CreateVersion failure stops the protocol -/

/-- C2: For every publish run in which the CreateVersion phase returns a
non-success response, the orchestrator fails carrying the response status and
body, and neither the UploadCode phase nor the FinalizeVersion phase is ever
invoked. -/
theorem createVersion_create_failure_stops (env : ModEnv) (o : ModOpts) (art : Artifact)
    (hsel : modSelectSource env o = .ok art)
    (hfail : env.createResp.ok = false) :
    createMachineVersion env o =
      ([.createVersion o.machine env.createBody.machineVersionId false],
       .error (.createFailed env.createResp.status env.createResp.body))
  ∧ (∀ u fl fn bs k, NetEv.uploadCode u fl fn bs k ∉ (createMachineVersion env o).1)
  ∧ (∀ m v ci mc k, NetEv.finalizeVersion m v ci mc k ∉ (createMachineVersion env o).1) := by
  have hmain : createMachineVersion env o =
      ([.createVersion o.machine env.createBody.machineVersionId false],
       .error (.createFailed env.createResp.status env.createResp.body)) := by
    unfold createMachineVersion
    rw [hsel]
    simp [hfail]
  refine ⟨hmain, ?_, ?_⟩
  · intro u fl fn bs k
    simp [hmain]
  · intro m v ci mc k
    simp [hmain]

/-- C2 witness: concrete run with a 500 CreateVersion response. -/
theorem createVersion_create_failure_stops_witness :
    createMachineVersion modEnvCreateFail modOptsFile =
      ([.createVersion "toggler" "ver_1" false], .error (.createFailed 500 "boom")) :=
  (createVersion_create_failure_stops modEnvCreateFail modOptsFile
    { fileName := "machine.js", code := "code" } rfl rfl).1

/-! ## C9: upload / finalize failure leaves the created version untouched -/

/-- C9: For every publish run in which the UploadCode or FinalizeVersion phase
fails after CreateVersion has succeeded, the orchestrator re-raises the error
of the failing phase unchanged (with that response's status and body) and
issues no compensating call: no `deleteVersion` call ever appears on the wire,
so the already-created version record remains on the backend, unfinalized; in
the upload-failure case no code bytes were ever successfully delivered. -/
theorem upload_finalize_failure_no_rollback
    (env : ModEnv) (o : ModOpts) (art : Artifact) (b0 : Backend)
    (hsel : modSelectSource env o = .ok art)
    (hok : env.createResp.ok = true) :
    (env.uploadResp.ok = false →
      createMachineVersion env o =
        ([.createVersion o.machine env.createBody.machineVersionId true,
          .uploadCode env.createBody.codeUploadUrl env.createBody.codeUploadFields
            art.fileName art.code false],
         .error (.uploadFailed env.uploadResp.status env.uploadResp.body))
      ∧ (∀ m v, NetEv.deleteVersion m v ∉ (createMachineVersion env o).1)
      ∧ (∀ u fl fn bs, NetEv.uploadCode u fl fn bs true ∉ (createMachineVersion env o).1)
      ∧ runBackend b0 (createMachineVersion env o).1 =
          { versions := b0.versions ++
              [{ machine := o.machine, id := env.createBody.machineVersionId,
                 finalized := false }] })
  ∧ (env.uploadResp.ok = true → env.finalizeResp.ok = false →
      createMachineVersion env o =
        ([.createVersion o.machine env.createBody.machineVersionId true,
          .uploadCode env.createBody.codeUploadUrl env.createBody.codeUploadFields
            art.fileName art.code true,
          .finalizeVersion o.machine env.createBody.machineVersionId
            o.versionReference o.makeCurrent false],
         .error (.finalizeFailed env.finalizeResp.status env.finalizeResp.body))
      ∧ (∀ m v, NetEv.deleteVersion m v ∉ (createMachineVersion env o).1)
      ∧ runBackend b0 (createMachineVersion env o).1 =
          { versions := b0.versions ++
              [{ machine := o.machine, id := env.createBody.machineVersionId,
                 finalized := false }] }) := by
  constructor
  · intro hup
    have hmain : createMachineVersion env o =
        ([.createVersion o.machine env.createBody.machineVersionId true,
          .uploadCode env.createBody.codeUploadUrl env.createBody.codeUploadFields
            art.fileName art.code false],
         .error (.uploadFailed env.uploadResp.status env.uploadResp.body)) := by
      unfold createMachineVersion
      rw [hsel]
      simp [hok, hup]
    refine ⟨hmain, ?_, ?_, ?_⟩
    · intro m v
      simp [hmain]
    · intro u fl fn bs
      simp [hmain]
    · simp [hmain, runBackend, applyNetEv]
  · intro hup hfin
    have hmain : createMachineVersion env o =
        ([.createVersion o.machine env.createBody.machineVersionId true,
          .uploadCode env.createBody.codeUploadUrl env.createBody.codeUploadFields
            art.fileName art.code true,
          .finalizeVersion o.machine env.createBody.machineVersionId
            o.versionReference o.makeCurrent false],
         .error (.finalizeFailed env.finalizeResp.status env.finalizeResp.body)) := by
      unfold createMachineVersion
      rw [hsel]
      simp [hok, hup, hfin]
    refine ⟨hmain, ?_, ?_⟩
    · intro m v
      simp [hmain]
    · simp [hmain, runBackend, applyNetEv]

/-- C9 witness: concrete run in which UploadCode fails with a 500. -/
theorem upload_finalize_failure_no_rollback_witness :
    createMachineVersion modEnvUploadFail modOptsFile =
      ([.createVersion "toggler" "ver_1" true,
        .uploadCode "upload-url" [("key", "value")] "machine.js" "code" false],
       .error (.uploadFailed 500 "boom")) :=
  ((upload_finalize_failure_no_rollback modEnvUploadFail modOptsFile
    { fileName := "machine.js", code := "code" } { versions := [] } rfl rfl).1 rfl).1

/-! ## Shape of a `silencableCreateMachineVersion` run -/

/-- The event trace and outcome of `silencableCreateMachineVersion` as a
function of the build result, the gzip result and the validation outcome:
gzip of the artifact code directly follows the build events; with validation
skipped the client create call follows the gzip immediately; with validation
enabled the validation runs after the gzip, a failure propagates with no
client call, and a pass is followed by the client create call. -/
theorem silencable_shape (env : BuildEnv) (o : SilOpts) (fs : FS)
    (art : Artifact) (gz : List Nat)
    (hb : (buildFromCommand env fs { js := o.js, node := o.node, deno := o.deno }).result = .ok art)
    (hg : env.gzip art.code = .ok gz) :
    (o.skipValidation = true →
      (silencableCreateMachineVersion env o fs).events =
        (buildFromCommand env fs { js := o.js, node := o.node, deno := o.deno }).events ++
          [.gzipCall art.code,
           .clientCreate o.machine gz o.versionReference o.makeCurrent])
  ∧ (o.skipValidation = false → ∀ e : CmdErr,
      validateBundleStep env.copyOk (env.moduleOf art.code) = .error e →
      (silencableCreateMachineVersion env o fs).result = .error e
      ∧ (silencableCreateMachineVersion env o fs).events =
          (buildFromCommand env fs { js := o.js, node := o.node, deno := o.deno }).events ++
            [.gzipCall art.code, .validateRun art.code false])
  ∧ (o.skipValidation = false →
      validateBundleStep env.copyOk (env.moduleOf art.code) = .ok () →
      (silencableCreateMachineVersion env o fs).events =
        (buildFromCommand env fs { js := o.js, node := o.node, deno := o.deno }).events ++
          [.gzipCall art.code, .validateRun art.code true,
           .clientCreate o.machine gz o.versionReference o.makeCurrent]) := by
  refine ⟨?_, ?_, ?_⟩
  · intro hskip
    unfold silencableCreateMachineVersion
    simp only [hb, hg, hskip, if_true]
    cases env.createResp <;> simp
  · intro hskip e hval
    unfold silencableCreateMachineVersion
    simp only [hb, hg, hskip, validateBundle_snd, hval, Bool.false_eq_true, if_false]
    refine ⟨?_, ?_⟩ <;> first | rfl | trivial | simp
  · intro hskip hval
    unfold silencableCreateMachineVersion
    simp only [hb, hg, hskip, validateBundle_snd, hval, Bool.false_eq_true, if_false]
    cases env.createResp <;> simp

/-! ## C4: temporary workspaces removed on every exit path -/

/-- C4: For every publish invocation, every temporary workspace directory
created for build or validation is removed on every exit path — success,
build failure, validation failure, or network failure — so after the run the
set of live temporary directories is exactly what it was before (and the same
holds for each `build` call and each `validateBundle` call in isolation). -/
theorem tempdirs_removed_on_every_path (env : BuildEnv) (o : SilOpts) (fs : FS) :
    (silencableCreateMachineVersion env o fs).fs.live = fs.live
  ∧ (∀ f t, (buildOne env fs f t).fs.live = fs.live)
  ∧ (∀ f t x, (partBuildOne env fs f t x).fs.live = fs.live)
  ∧ (∀ c m, (validateBundle c m fs).1.live = fs.live) := by
  refine ⟨?_, fun f t => buildOne_fs_live env fs f t,
    fun f t x => partBuildOne_fs_live env fs f t x,
    fun c m => validateBundle_fs_live c m fs⟩
  have hb := buildFromCommand_fs_live env fs { js := o.js, node := o.node, deno := o.deno }
  unfold silencableCreateMachineVersion
  cases hres : (buildFromCommand env fs { js := o.js, node := o.node, deno := o.deno }).result with
  | error e =>
    simp only [hres]
    exact hb
  | ok code =>
    simp only [hres]
    cases hgz : env.gzip code.code with
    | error e =>
      simp only [hgz]
      exact hb
    | ok gz =>
      simp only [hgz]
      by_cases hskip : o.skipValidation = true
      · simp only [hskip, if_true]
        cases env.createResp <;> simpa using hb
      · simp only [hskip, if_false, validateBundle]
        cases hv : validateBundleStep env.copyOk (env.moduleOf code.code)
        · simp_all [mkdtemp, rmdirTemp, List.erase_cons_head]
        · cases env.createResp <;> simp_all [mkdtemp, rmdirTemp, List.erase_cons_head]

/-! ## C3: position of compression relative to validation -/

/-- C3 counterexample: a run in which validation is enabled and fails, yet the
compression step has already happened (and happened before validation): the
claim that a failing validation terminates the run "without compressing", and
that Compressing is entered only after a passed validation, is false on the
code. -/
theorem validation_failure_after_compress_cex :
    (silencableCreateMachineVersion envBadBundle optsJs fs0).result = .error .invalidBundle
  ∧ (silencableCreateMachineVersion envBadBundle optsJs fs0).events =
      [.readFile "machine.js", .gzipCall "bundle", .validateRun "bundle" false]
  ∧ Ev.gzipCall "bundle" ∈ (silencableCreateMachineVersion envBadBundle optsJs fs0).events := by
  refine ⟨rfl, rfl, ?_⟩
  show Ev.gzipCall "bundle" ∈ [Ev.readFile "machine.js", Ev.gzipCall "bundle",
    Ev.validateRun "bundle" false]
  simp

/-- C3 amended: compression (gzip of the artifact code) happens immediately
after building and before validation; with validation enabled, a failing
validation terminates the run in the validation error without any network
call, and the CreateVersion call happens only after a passed validation; with
validation explicitly skipped the Validating state is bypassed entirely and
Building transitions directly to Compressing. -/
theorem silencable_validation_gates_network (env : BuildEnv) (o : SilOpts) (fs : FS)
    (art : Artifact) (gz : List Nat)
    (hb : (buildFromCommand env fs { js := o.js, node := o.node, deno := o.deno }).result = .ok art)
    (hg : env.gzip art.code = .ok gz) :
    (o.skipValidation = true →
      (silencableCreateMachineVersion env o fs).events =
        (buildFromCommand env fs { js := o.js, node := o.node, deno := o.deno }).events ++
          [.gzipCall art.code,
           .clientCreate o.machine gz o.versionReference o.makeCurrent]
      ∧ (∀ c p, Ev.validateRun c p ∉ (silencableCreateMachineVersion env o fs).events))
  ∧ (o.skipValidation = false → ∀ e : CmdErr,
      validateBundleStep env.copyOk (env.moduleOf art.code) = .error e →
      (silencableCreateMachineVersion env o fs).result = .error e
      ∧ (silencableCreateMachineVersion env o fs).events =
          (buildFromCommand env fs { js := o.js, node := o.node, deno := o.deno }).events ++
            [.gzipCall art.code, .validateRun art.code false]
      ∧ (∀ m g ci mc, Ev.clientCreate m g ci mc ∉ (silencableCreateMachineVersion env o fs).events))
  ∧ (o.skipValidation = false →
      validateBundleStep env.copyOk (env.moduleOf art.code) = .ok () →
      (silencableCreateMachineVersion env o fs).events =
        (buildFromCommand env fs { js := o.js, node := o.node, deno := o.deno }).events ++
          [.gzipCall art.code, .validateRun art.code true,
           .clientCreate o.machine gz o.versionReference o.makeCurrent]) := by
  obtain ⟨hskip, hfail, hpass⟩ := silencable_shape env o fs art gz hb hg
  refine ⟨?_, ?_, hpass⟩
  · intro h
    refine ⟨hskip h, ?_⟩
    intro c p
    rw [hskip h]
    intro hmem
    rcases List.mem_append.mp hmem with hin | hin
    · exact validateRun_not_in_buildFromCommand env fs _ c p hin
    · simp at hin
  · intro h e hval
    obtain ⟨hres, hevs⟩ := hfail h e hval
    refine ⟨hres, hevs, ?_⟩
    intro m g ci mc
    rw [hevs]
    intro hmem
    rcases List.mem_append.mp hmem with hin | hin
    · exact clientCreate_not_in_buildFromCommand env fs _ m g ci mc hin
    · simp at hin

/-- C3 witness: the amended theorem applied to a concrete run whose bundle
fails validation. -/
theorem silencable_validation_gates_network_witness :
    (silencableCreateMachineVersion envBadBundle optsJs fs0).result =
      .error CmdErr.invalidBundle
  ∧ (silencableCreateMachineVersion envBadBundle optsJs fs0).events =
      (buildFromCommand envBadBundle fs0
        { js := optsJs.js, node := optsJs.node, deno := optsJs.deno }).events ++
        [.gzipCall "bundle", .validateRun "bundle" false] := by
  have h := (silencable_validation_gates_network envBadBundle optsJs fs0
    { fileName := "machine.js", code := "bundle" } [6] rfl rfl).2.1 rfl
    CmdErr.invalidBundle rfl
  exact ⟨h.1, h.2.1⟩

/-! ## C10: the uploaded payload is computed before validation and unchanged
by it -/

/-- C10: For every publish run in which validation passes (or is skipped), the
compressed payload submitted to the backend is the gzip of the build
artifact's code, computed before validation runs (the gzip event precedes the
validation event in the trace), and the submitted bytes are identical whether
validation was performed or skipped. -/
theorem uploaded_bytes_independent_of_validation (env : BuildEnv) (o : SilOpts)
    (fs : FS) (art : Artifact) (gz : List Nat)
    (hb : (buildFromCommand env fs { js := o.js, node := o.node, deno := o.deno }).result = .ok art)
    (hg : env.gzip art.code = .ok gz)
    (hv : validateBundleStep env.copyOk (env.moduleOf art.code) = .ok ()) :
    (silencableCreateMachineVersion env { o with skipValidation := false } fs).events =
      (buildFromCommand env fs { js := o.js, node := o.node, deno := o.deno }).events ++
        [.gzipCall art.code, .validateRun art.code true,
         .clientCreate o.machine gz o.versionReference o.makeCurrent]
  ∧ (silencableCreateMachineVersion env { o with skipValidation := true } fs).events =
      (buildFromCommand env fs { js := o.js, node := o.node, deno := o.deno }).events ++
        [.gzipCall art.code,
         .clientCreate o.machine gz o.versionReference o.makeCurrent] := by
  constructor
  · exact (silencable_shape env { o with skipValidation := false } fs art gz hb hg).2.2 rfl hv
  · exact (silencable_shape env { o with skipValidation := true } fs art gz hb hg).1 rfl

/-- C10 witness: a concrete valid run — performed and skipped validation both
submit the payload `[6]` computed from the artifact code. -/
theorem uploaded_bytes_independent_of_validation_witness :
    (silencableCreateMachineVersion envOk { optsJs with skipValidation := false } fs0).events =
      [.readFile "machine.js", .gzipCall "bundle", .validateRun "bundle" true,
       .clientCreate "toggler" [6] "v1" false]
  ∧ (silencableCreateMachineVersion envOk { optsJs with skipValidation := true } fs0).events =
      [.readFile "machine.js", .gzipCall "bundle",
       .clientCreate "toggler" [6] "v1" false] :=
  uploaded_bytes_independent_of_validation envOk optsJs fs0
    { fileName := "machine.js", code := "bundle" } [6] rfl rfl rfl

/-! ## C6: one build call returns both artifact variants -/

/-- C6: For every valid entrypoint and dialect, a single logical `build` call
produces the pair (externalized artifact, fully-inlined artifact): the
returned artifact's canonical `code` holds the externalized variant and its
`bundled` field the fully-inlined variant, both built from the same entrypoint
and sharing the same `fileName`, without requiring two independent `build`
calls from the caller. -/
theorem partBuild_single_call_both_variants
    (env : BuildEnv) (fs : FS) (f t : String) (b e : Artifact)
    (hbnd : (partBuildOne env fs f t false).result = .ok b)
    (hext : (partBuildOne env (partBuildOne env fs f t false).fs f t true).result = .ok e) :
    (partBuild env fs f t).result =
      .ok { fileName := e.fileName, code := e.code, bundled := b.code }
  ∧ e.fileName = basename f
  ∧ b.fileName = basename f := by
  refine ⟨?_, partBuildOne_fileName env _ f t true e hext,
    partBuildOne_fileName env fs f t false b hbnd⟩
  unfold partBuild
  simp only [hbnd, hext]

/-- C6 witness: a concrete successful two-variant build. -/
theorem partBuild_single_call_both_variants_witness :
    (partBuild envOk fs0 "entry.ts" "node").result =
      .ok { fileName := "entry.ts", code := "built", bundled := "built" } :=
  (partBuild_single_call_both_variants envOk fs0 "entry.ts" "node"
    { fileName := "entry.ts", code := "built" }
    { fileName := "entry.ts", code := "built" } rfl rfl).1

end Smply
